import Mathlib

/-!
# Verification of `ochazuke/helpers.py`

A shallow embedding of the date-handling and timeline-slicing helpers of the
webcompat metrics server, together with proofs of the specified properties.

Modelling conventions:
* A Python `datetime` produced by `strptime(s, "%Y-%m-%d")` is a midnight
  timestamp; we model it by its calendar date, a `Date` structure.
* `strptime` with format `"%Y-%m-%d"` follows CPython `_strptime`: the format
  compiles to the anchored regex `(\d\d\d\d)-(1[0-2]|0[1-9]|[1-9])-(3[01]|[12]\d|0[1-9]|[1-9])`
  with no leftover input allowed, and then `datetime(y, m, d)` validates the
  day against the month length and requires `1 <= year <= 9999`.  We model
  `\d` as an ASCII digit.  The backtracking of the regex alternation is
  deterministic here: a two-digit branch can only be abandoned for the
  one-digit branch when the second character is not a digit (see `parse2or1`).
* `strftime("%Y-%m-%d")` zero-pads the year to four digits and month/day to
  two digits (`Date` values reaching it always have `year <= 9999`).  This is
  the behaviour CPython documents for `%Y`; on glibc years below 1000 are
  rendered without padding, a platform quirk we do not model.
* Functions that can raise a Python exception past their own boundary are
  embedded in `Except String`, the error string naming the exception type.
  In particular adding or subtracting a `timedelta` raises `OverflowError` when the
  result leaves the supported range (year 1 to 9999), and `x in None` raises
  `TypeError`.
* `json.loads`/`json.dumps` are modelled as the identity between the wire
  string and the structured `Json` value: functions take and return `Json`.
* A JSON object is a key-value list with distinct keys in insertion order;
  dict assignment replaces the value of an existing key in place.
* Simplification: a record whose `"timestamp"` value is not a string is
  modelled as raising `TypeError` (in Python a list-valued timestamp would
  instead be sliced and compared unequal; no claim concerns such records).
-/

/-- A calendar date, the result of parsing a `YYYY-MM-DD` string. -/
structure Date where
  year : Nat
  month : Nat
  day : Nat
deriving DecidableEq, Repr

/-- Gregorian leap-year test, as in Python's `calendar`/`datetime`. -/
def isLeap (y : Nat) : Bool :=
  (y % 4 == 0 && y % 100 != 0) || (y % 400 == 0)

/-- Number of days in month `m` of year `y` (for `1 <= m <= 12`). -/
def daysInMonth (y m : Nat) : Nat :=
  if m = 2 then (if isLeap y then 29 else 28)
  else if m = 4 ∨ m = 6 ∨ m = 9 ∨ m = 11 then 30
  else 31

/-- Days in year `y` strictly before month `m`. -/
def daysBeforeMonth (y : Nat) : Nat → Nat
  | 0 => 0
  | 1 => 0
  | m + 2 => daysBeforeMonth y (m + 1) + daysInMonth y (m + 1)

/-- Days strictly before January 1 of year `y`, as in Python's
`date.toordinal` (so `daysBeforeYear 1 = 0`). -/
def daysBeforeYear (y : Nat) : Nat :=
  365 * (y - 1) + (y - 1) / 4 - (y - 1) / 100 + (y - 1) / 400

/-- Proleptic Gregorian ordinal of a date: `toOrdinal ⟨1,1,1⟩ = 1`,
matching Python's `date.toordinal`. -/
def toOrdinal (d : Date) : Nat :=
  daysBeforeYear d.year + daysBeforeMonth d.year d.month + d.day

/-- A structurally valid calendar date (what `datetime` accepts, ignoring
the year-9999 upper bound, which we track separately). -/
def isValidDate (d : Date) : Prop :=
  1 ≤ d.year ∧ 1 ≤ d.month ∧ d.month ≤ 12 ∧ 1 ≤ d.day ∧ d.day ≤ daysInMonth d.year d.month

instance (d : Date) : Decidable (isValidDate d) := by
  unfold isValidDate
  infer_instance

/-- The calendar day after `d` (Python `d + timedelta(days=1)`, before the
range check). -/
def succDay (d : Date) : Date :=
  if d.day < daysInMonth d.year d.month then ⟨d.year, d.month, d.day + 1⟩
  else if d.month < 12 then ⟨d.year, d.month + 1, 1⟩
  else ⟨d.year + 1, 1, 1⟩

/-- The calendar day before `d` (Python `d - timedelta(days=1)`, before the
range check). -/
def predDay (d : Date) : Date :=
  if 2 ≤ d.day then ⟨d.year, d.month, d.day - 1⟩
  else if 2 ≤ d.month then ⟨d.year, d.month - 1, daysInMonth d.year (d.month - 1)⟩
  else ⟨d.year - 1, 12, 31⟩

/-- The ASCII digit character for `k < 10`. -/
def digitChar (k : Nat) : Char :=
  match k with
  | 0 => '0' | 1 => '1' | 2 => '2' | 3 => '3' | 4 => '4'
  | 5 => '5' | 6 => '6' | 7 => '7' | 8 => '8' | _ => '9'

/-- Numeric value of an ASCII digit character. -/
def digitVal (c : Char) : Nat :=
  c.toNat - 48

/-- The four characters of a year rendered by `strftime("%Y")` (zero-padded,
for years up to 9999). -/
def yearChars (y : Nat) : List Char :=
  [digitChar (y / 1000 % 10), digitChar (y / 100 % 10),
   digitChar (y / 10 % 10), digitChar (y % 10)]

/-- The two characters of a month or day rendered by `%m` / `%d`
(zero-padded). -/
def twoChars (v : Nat) : List Char :=
  [digitChar (v / 10 % 10), digitChar (v % 10)]

/-- Embeds `date.strftime("%Y-%m-%d")`. -/
def strftime (d : Date) : String :=
  String.mk (yearChars d.year ++ '-' :: twoChars d.month ++ '-' :: twoChars d.day)

/-- Match a one-or-two-digit numeric field of `strptime`, the compiled
alternation accepting exactly the two-digit strings of value `1..maxVal`
and the one-digit strings `1..9`.  Regex backtracking is deterministic
here: when two digits are present the one-digit alternative is useless,
since the remaining pattern would then have to match starting at a digit
while it expects `-` or end of input. -/
def parse2or1 (maxVal : Nat) : List Char → Option (Nat × List Char)
  | a :: b :: rest =>
    if a.isDigit then
      if b.isDigit then
        if 1 ≤ 10 * digitVal a + digitVal b ∧ 10 * digitVal a + digitVal b ≤ maxVal then
          some (10 * digitVal a + digitVal b, rest)
        else none
      else if a ≠ '0' then some (digitVal a, b :: rest) else none
    else none
  | [a] => if a.isDigit ∧ a ≠ '0' then some (digitVal a, []) else none
  | [] => none

/-- Numeric value of the four year digits. -/
def yearNum (c1 c2 c3 c4 : Char) : Nat :=
  1000 * digitVal c1 + 100 * digitVal c2 + 10 * digitVal c3 + digitVal c4

/-- The year-month-day part of `strptime(s, "%Y-%m-%d")` after the first
five characters have matched `\d\d\d\d-`. -/
def parseYMD (c1 c2 c3 c4 : Char) (rest : List Char) : Option Date :=
  if c1.isDigit ∧ c2.isDigit ∧ c3.isDigit ∧ c4.isDigit then
    match parse2or1 12 rest with
    | some (m, c :: rest2) =>
      if c = '-' then
        match parse2or1 31 rest2 with
        | some (d, []) =>
          if 1 ≤ yearNum c1 c2 c3 c4 ∧ d ≤ daysInMonth (yearNum c1 c2 c3 c4) m then
            some ⟨yearNum c1 c2 c3 c4, m, d⟩
          else none
        | _ => none
      else none
    | _ => none
  else none

/-- Embeds `datetime.strptime(s, "%Y-%m-%d")` wrapped in a `try` that turns
any exception into absence. -/
def parseDate (s : String) : Option Date :=
  match s.data with
  | c1 :: c2 :: c3 :: c4 :: c5 :: rest =>
    if c5 = '-' then parseYMD c1 c2 c3 c4 rest else none
  | _ => none

/-- Embeds `end - datetime.timedelta(days=n)`: raises `OverflowError` when
the result falls before year 1 (`datetime.min`). -/
def subDays (e : Date) (n : Nat) : Except String Date :=
  let r := predDay^[n] e
  if 1 ≤ r.year then .ok r else .error "OverflowError"

/-- The date-list accumulation loop of `get_days`:
`for n in indices: dates.append((end - timedelta(days=n)).strftime(fmt))`. -/
def buildDates (e : Date) : List Nat → Except String (List String)
  | [] => .ok []
  | n :: rest => do
    let d ← subDays e n
    let ds ← buildDates e rest
    .ok (strftime d :: ds)

/-- Embeds `helpers.get_days`.  Returns `.ok none` for the Python `None`
sentinel (unparseable input) and `.error` for an uncaught exception. -/
def get_days (from_date to_date : String) : Except String (Option (List String)) :=
  match parseDate from_date, parseDate to_date with
  | some start, some end_ =>
    if start = end_ then .ok (some [from_date])
    else
      let delta : Int := (toOrdinal end_ : Int) - (toOrdinal start : Int)
      let e := if delta < 0 then start else end_
      let days := delta.natAbs
      do
        let ds ← buildDates e (List.range (days + 1))
        .ok (some ds)
  | _, _ => .ok none

/-- A JSON value (numbers restricted to integers, which suffices for the
count records this server produces). -/
inductive Json where
  | null : Json
  | bool : Bool → Json
  | num : Int → Json
  | str : String → Json
  | arr : List Json → Json
  | obj : List (String × Json) → Json

/-- First-match key lookup in a JSON object (Python dict access). -/
def jlookup (k : String) : List (String × Json) → Option Json
  | [] => none
  | (k', v) :: rest => if k' = k then some v else jlookup k rest

/-- Python dict assignment on an existing key: replace the value in place,
preserving key order; append if the key is absent. -/
def setField (k : String) (v : Json) : List (String × Json) → List (String × Json)
  | [] => [(k, v)]
  | (k', v') :: rest => if k' = k then (k, v) :: rest else (k', v') :: setField k v rest

/-- Evaluates `dated_data["timestamp"]`, raising `TypeError`/`KeyError` as
Python would (see the module comment for the non-string simplification). -/
def tsKey (r : Json) : Except String String :=
  match r with
  | .obj fields =>
    match jlookup "timestamp" fields with
    | some (.str s) => .ok s
    | some _ => .error "TypeError"
    | none => .error "KeyError"
  | _ => .error "TypeError"

/-- One evaluation of the comprehension condition
`dated_data["timestamp"][:10] in dates_list`; `dates_list` may be Python
`None`, in which case the membership test raises `TypeError`. -/
def sliceKeep (dates_list : Option (List String)) (r : Json) : Except String Bool := do
  let s ← tsKey r
  match dates_list with
  | none => .error "TypeError"
  | some l => .ok (decide (s.take 10 ∈ l))

/-- The comprehension's keep-condition as a pure predicate, for stating
what `get_timeline_slice` computes on well-formed records. -/
def keepRec (dates_list : List String) (r : Json) : Bool :=
  match tsKey r with
  | .ok s => decide (s.take 10 ∈ dates_list)
  | .error _ => false

/-- Embeds `helpers.get_timeline_slice` (the list comprehension, evaluated
left to right, the first exception aborting). -/
def get_timeline_slice (timeline : List Json) (dates_list : Option (List String)) :
    Except String (List Json) :=
  match timeline with
  | [] => .ok []
  | r :: rest => do
    let keep ← sliceKeep dates_list r
    let tail ← get_timeline_slice rest dates_list
    .ok (if keep then r :: tail else tail)

/-- Embeds `helpers.get_json_slice`; the envelope is the `json.loads` image
of the wire string and the result is what `json.dumps` re-encodes. -/
def get_json_slice (envelope : Json) (from_date to_date : String) : Except String Json := do
  let dates ← get_days from_date to_date
  match envelope with
  | .obj fields =>
    match jlookup "timeline" fields with
    | some (.arr timeline) => do
      let part ← get_timeline_slice timeline dates
      .ok (.obj (setField "timeline" (.arr part) fields))
    | some _ => .error "TypeError"
    | none => .error "KeyError"
  | _ => .error "TypeError"

/-- First-match lookup in the request-argument mapping (`args["from"]`). -/
def alookup (k : String) : List (String × String) → Option String
  | [] => none
  | (k', v) :: rest => if k' = k then some v else alookup k rest

/-- Embeds `helpers.is_valid_args`; `args` models the request-argument
mapping, whose truthiness is non-emptiness. -/
def is_valid_args (args : List (String × String)) : Bool :=
  if args.isEmpty then false
  else
    match alookup "from" args, alookup "to" args with
    | some f, some t => (parseDate f).isSome && (parseDate t).isSome
    | _, _ => false

/-- Embeds `helpers.is_valid_category`. -/
def is_valid_category (category : String) : Bool :=
  category ∈ ["needsdiagnosis", "needstriage", "needscontact", "contactready", "sitewait"]

/-- Embeds `helpers.normalize_date_range`.  Returns `.ok none` for the
Python `None` sentinel; the `+ timedelta(days=1)` sits outside the
`try`/`except`, so its `OverflowError` escapes to the caller. -/
def normalize_date_range (from_date to_date : String) :
    Except String (Option (String × String)) :=
  match parseDate from_date, parseDate to_date with
  | some start, some end_ =>
    let e := succDay end_
    if e.year ≤ 9999 then .ok (some (strftime start, strftime e))
    else .error "OverflowError"
  | _, _ => .ok none

/-! ## Calendar arithmetic -/

theorem daysInMonth_pos (y m : Nat) : 1 ≤ daysInMonth y m := by
  unfold daysInMonth
  split_ifs <;> omega

theorem daysInMonth_le_31 (y m : Nat) : daysInMonth y m ≤ 31 := by
  unfold daysInMonth
  split_ifs <;> omega

theorem daysBeforeMonth_succ (y m : Nat) (h : 1 ≤ m) :
    daysBeforeMonth y (m + 1) = daysBeforeMonth y m + daysInMonth y m := by
  obtain ⟨k, rfl⟩ : ∃ k, m = k + 1 := ⟨m - 1, by omega⟩
  rfl

theorem daysBeforeMonth_ge (y : Nat) (m : Nat) (h : 2 ≤ m) : 31 ≤ daysBeforeMonth y m := by
  induction m with
  | zero => omega
  | succ k ih =>
    rcases Nat.lt_or_ge k 2 with hk | hk
    · have hk1 : k = 1 := by omega
      subst hk1
      show 31 ≤ daysBeforeMonth y 1 + daysInMonth y 1
      show 31 ≤ 0 + 31
      omega
    · rw [daysBeforeMonth_succ y k (by omega)]
      have := ih (by omega)
      omega

theorem daysBeforeMonth_year (y : Nat) :
    daysBeforeMonth y 12 + 31 = 365 + (if isLeap y then 1 else 0) := by
  show 0 + 31 + (if isLeap y then 29 else 28) + 31 + 30 + 31 + 30 + 31 + 31 + 30 + 31 + 30
      + 31 = _
  split_ifs <;> omega

theorem daysBeforeYear_succ (y : Nat) (hy : 1 ≤ y) :
    daysBeforeYear (y + 1) = daysBeforeYear y + 365 + (if isLeap y then 1 else 0) := by
  obtain ⟨k, rfl⟩ : ∃ k, y = k + 1 := ⟨y - 1, by omega⟩
  unfold daysBeforeYear isLeap
  simp only [Nat.add_sub_cancel, Bool.or_eq_true, Bool.and_eq_true, beq_iff_eq, bne_iff_ne,
    ne_eq]
  rw [Nat.succ_div (k) 4, Nat.succ_div (k) 100, Nat.succ_div (k) 400]
  split_ifs <;> omega

theorem daysBeforeYear_ge (y : Nat) (h : 2 ≤ y) : 364 ≤ daysBeforeYear y := by
  unfold daysBeforeYear
  have h1 : (y - 1) / 100 ≤ y - 1 := Nat.div_le_self _ _
  have h2 : (y - 1) / 4 ≥ 0 := Nat.zero_le _
  omega

theorem toOrdinal_pos (d : Date) (h : isValidDate d) : 1 ≤ toOrdinal d := by
  obtain ⟨hy, hm1, hm12, hd1, hd2⟩ := h
  unfold toOrdinal
  omega

theorem toOrdinal_succDay (d : Date) (h : isValidDate d) :
    toOrdinal (succDay d) = toOrdinal d + 1 := by
  obtain ⟨y, m, dd⟩ := d
  obtain ⟨hy, hm1, hm12, hd1, hd2⟩ := h
  simp only at hy hm1 hm12 hd1 hd2
  unfold succDay toOrdinal
  simp only
  split_ifs with h1 h2
  · simp only
    omega
  · simp only
    rw [daysBeforeMonth_succ y m hm1]
    omega
  · have hm : m = 12 := by omega
    subst hm
    have hdim : daysInMonth y 12 = 31 := rfl
    have hdd : dd = 31 := by omega
    subst hdd
    simp only
    rw [daysBeforeYear_succ y hy]
    have hy12 := daysBeforeMonth_year y
    have h0 : daysBeforeMonth (y + 1) 1 = 0 := rfl
    omega


@[simp] theorem isValidDate_mk (y m dd : Nat) :
    isValidDate ⟨y, m, dd⟩ ↔ 1 ≤ y ∧ 1 ≤ m ∧ m ≤ 12 ∧ 1 ≤ dd ∧ dd ≤ daysInMonth y m :=
  Iff.rfl

@[simp] theorem toOrdinal_mk (y m dd : Nat) :
    toOrdinal ⟨y, m, dd⟩ = daysBeforeYear y + daysBeforeMonth y m + dd :=
  rfl

theorem succDay_mk (y m dd : Nat) :
    succDay ⟨y, m, dd⟩ =
      if dd < daysInMonth y m then ⟨y, m, dd + 1⟩
      else if m < 12 then ⟨y, m + 1, 1⟩
      else ⟨y + 1, 1, 1⟩ :=
  rfl

theorem predDay_mk (y m dd : Nat) :
    predDay ⟨y, m, dd⟩ =
      if 2 ≤ dd then ⟨y, m, dd - 1⟩
      else if 2 ≤ m then ⟨y, m - 1, daysInMonth y (m - 1)⟩
      else ⟨y - 1, 12, 31⟩ :=
  rfl

theorem isValidDate_succDay (d : Date) (h : isValidDate d) : isValidDate (succDay d) := by
  obtain ⟨y, m, dd⟩ := d
  rw [isValidDate_mk] at h
  rw [succDay_mk]
  have p1 := daysInMonth_pos y (m + 1)
  have p2 := daysInMonth_pos (y + 1) 1
  split_ifs with h1 h2 <;> rw [isValidDate_mk] <;> omega

theorem succDay_year (d : Date) : d.year ≤ (succDay d).year ∧ (succDay d).year ≤ d.year + 1 := by
  obtain ⟨y, m, dd⟩ := d
  rw [succDay_mk]
  split_ifs <;> simp

theorem predDay_year (d : Date) : (predDay d).year ≤ d.year := by
  obtain ⟨y, m, dd⟩ := d
  rw [predDay_mk]
  split_ifs <;> simp

theorem succDay_predDay (d : Date) (h : isValidDate d) (h2 : 2 ≤ toOrdinal d) :
    isValidDate (predDay d) ∧ succDay (predDay d) = d := by
  obtain ⟨y, m, dd⟩ := d
  rw [isValidDate_mk] at h
  obtain ⟨hy, hm1, hm12, hd1, hd2⟩ := h
  rw [toOrdinal_mk] at h2
  rw [predDay_mk]
  split_ifs with hc1 hc2
  · constructor
    · rw [isValidDate_mk]
      omega
    · rw [succDay_mk, if_pos (by omega)]
      congr 1
      omega
  · have hdd : dd = 1 := by omega
    have p1 := daysInMonth_pos y (m - 1)
    constructor
    · rw [isValidDate_mk]
      exact ⟨hy, by omega, by omega, p1, le_refl _⟩
    · rw [succDay_mk, if_neg (by omega), if_pos (by omega)]
      congr 1 <;> omega
  · have hdd : dd = 1 := by omega
    have hm : m = 1 := by omega
    subst hdd hm
    have hy2 : 2 ≤ y := by
      by_contra hlt
      have hy1 : y = 1 := by omega
      subst hy1
      have e1 : daysBeforeYear 1 = 0 := rfl
      have e2 : daysBeforeMonth 1 1 = 0 := rfl
      omega
    have hdim : daysInMonth (y - 1) 12 = 31 := rfl
    constructor
    · rw [isValidDate_mk]
      omega
    · rw [succDay_mk, if_neg (by omega), if_neg (by omega)]
      congr 1
      omega

theorem toOrdinal_eq_one (d : Date) (h : isValidDate d) (h1 : toOrdinal d = 1) :
    d = ⟨1, 1, 1⟩ := by
  obtain ⟨y, m, dd⟩ := d
  rw [isValidDate_mk] at h
  obtain ⟨hy, hm1, hm12, hd1, hd2⟩ := h
  rw [toOrdinal_mk] at h1
  have hyy : y = 1 := by
    by_contra hne
    have := daysBeforeYear_ge y (by omega)
    omega
  have hmm : m = 1 := by
    by_contra hne
    have := daysBeforeMonth_ge y m (by omega)
    omega
  subst hyy hmm
  have e1 : daysBeforeYear 1 = 0 := rfl
  have e2 : daysBeforeMonth 1 1 = 0 := rfl
  congr 1
  omega

theorem predDay_iter (d : Date) (h : isValidDate d) (n : Nat) (hn : n < toOrdinal d) :
    isValidDate (predDay^[n] d) ∧ toOrdinal (predDay^[n] d) = toOrdinal d - n ∧
    succDay^[n] (predDay^[n] d) = d ∧ (predDay^[n] d).year ≤ d.year := by
  induction n with
  | zero =>
    simp only [Function.iterate_zero_apply]
    exact ⟨h, by omega, by trivial, le_refl _⟩
  | succ k ih =>
    obtain ⟨hv, ho, hs, hy⟩ := ih (by omega)
    have h2 : 2 ≤ toOrdinal (predDay^[k] d) := by omega
    obtain ⟨hv', hs'⟩ := succDay_predDay _ hv h2
    have ho' : toOrdinal (predDay (predDay^[k] d)) = toOrdinal (predDay^[k] d) - 1 := by
      have hstep := toOrdinal_succDay _ hv'
      rw [hs'] at hstep
      omega
    refine ⟨?_, ?_, ?_, ?_⟩
    · rw [Function.iterate_succ_apply']
      exact hv'
    · rw [Function.iterate_succ_apply', ho']
      omega
    · rw [Function.iterate_succ_apply' predDay, Function.iterate_succ_apply succDay]
      rw [hs']
      exact hs
    · rw [Function.iterate_succ_apply']
      exact le_trans (predDay_year _) hy

theorem toOrdinal_inj (d e : Date) (hd : isValidDate d) (he : isValidDate e)
    (h : toOrdinal d = toOrdinal e) : d = e := by
  have hpd := toOrdinal_pos d hd
  have hpe := toOrdinal_pos e he
  obtain ⟨hvd, hod, hsd, _⟩ := predDay_iter d hd (toOrdinal d - 1) (by omega)
  obtain ⟨hve, hoe, hse, _⟩ := predDay_iter e he (toOrdinal e - 1) (by omega)
  have h1d : toOrdinal (predDay^[toOrdinal d - 1] d) = 1 := by omega
  have h1e : toOrdinal (predDay^[toOrdinal e - 1] e) = 1 := by omega
  have hbd : predDay^[toOrdinal d - 1] d = ⟨1, 1, 1⟩ := toOrdinal_eq_one _ hvd h1d
  have hbe : predDay^[toOrdinal e - 1] e = ⟨1, 1, 1⟩ := toOrdinal_eq_one _ hve h1e
  rw [hbd] at hsd
  rw [hbe] at hse
  rw [← hsd, ← hse, h]

/-! ## Facts about parsing and rendering -/

theorem isDigit_toNat (c : Char) (h : c.isDigit = true) : 48 ≤ c.toNat ∧ c.toNat ≤ 57 := by
  simp [Char.isDigit] at h
  exact h

theorem digitVal_le_9 (c : Char) (h : c.isDigit = true) : digitVal c ≤ 9 := by
  have := isDigit_toNat c h
  unfold digitVal
  omega

theorem digitVal_pos (c : Char) (hd : c.isDigit = true) (h0 : c ≠ '0') : 1 ≤ digitVal c := by
  have hb := isDigit_toNat c hd
  have h48 : c.toNat ≠ 48 := by
    intro hc
    apply h0
    have := Char.ofNat_toNat c
    rw [hc] at this
    exact this.symm
  unfold digitVal
  omega

theorem parse2or1_bounds (maxV : Nat) (h9 : 9 ≤ maxV) (cs : List Char) (v : Nat)
    (rest : List Char) (h : parse2or1 maxV cs = some (v, rest)) : 1 ≤ v ∧ v ≤ maxV := by
  match cs with
  | [] => exact absurd h (by simp [parse2or1])
  | [a] =>
    rw [parse2or1] at h
    split_ifs at h with hc
    · obtain ⟨hd, h0⟩ := hc
      have h1 := digitVal_pos a hd h0
      have h2 := digitVal_le_9 a hd
      injection h with h
      injection h with hv hrest
      omega
  | a :: b :: cs' =>
    rw [parse2or1] at h
    split_ifs at h with hda hdb hb h0
    · injection h with h
      injection h with hv hrest
      omega
    · have h1 := digitVal_pos a hda h0
      have h2 := digitVal_le_9 a hda
      injection h with h
      injection h with hv hrest
      omega

theorem parseYMD_valid (c1 c2 c3 c4 : Char) (rest : List Char) (d : Date)
    (h : parseYMD c1 c2 c3 c4 rest = some d) : isValidDate d ∧ d.year ≤ 9999 := by
  rw [parseYMD] at h
  split_ifs at h with hds
  · obtain ⟨h1, h2, h3, h4⟩ := hds
    split at h
    · rename_i m c rest2 hm
      split at h
      · split at h
        · rename_i dd hdd
          split_ifs at h with hok
          · injection h with h
            subst h
            obtain ⟨hm1, hm12⟩ := parse2or1_bounds 12 (by omega) rest m (c :: rest2) hm
            obtain ⟨hd1, _⟩ := parse2or1_bounds 31 (by omega) rest2 dd [] hdd
            have hy9 : yearNum c1 c2 c3 c4 ≤ 9999 := by
              have e1 := digitVal_le_9 c1 h1
              have e2 := digitVal_le_9 c2 h2
              have e3 := digitVal_le_9 c3 h3
              have e4 := digitVal_le_9 c4 h4
              unfold yearNum
              omega
            exact ⟨⟨hok.1, hm1, hm12, hd1, hok.2⟩, hy9⟩
        · exact absurd h (by simp)
      · exact absurd h (by simp)
    · exact absurd h (by simp)

theorem parseDate_valid (s : String) (d : Date) (h : parseDate s = some d) :
    isValidDate d ∧ d.year ≤ 9999 := by
  rw [parseDate] at h
  split at h
  · rename_i x b1 b2 b3 b4 b5 brest heq
    split_ifs at h with hdash
    exact parseYMD_valid b1 b2 b3 b4 brest d h
  · exact absurd h (by simp)

/-! ## Evaluating `get_days` on valid input -/

theorem subDays_ok (e : Date) (h : isValidDate e) (n : Nat) (hn : n < toOrdinal e) :
    subDays e n = .ok (predDay^[n] e) := by
  obtain ⟨hv, _, _, _⟩ := predDay_iter e h n hn
  unfold subDays
  rw [if_pos hv.1]

theorem buildDates_ok (e : Date) (h : isValidDate e) (ns : List Nat)
    (hns : ∀ n ∈ ns, n < toOrdinal e) :
    buildDates e ns = .ok (ns.map (fun n => strftime (predDay^[n] e))) := by
  induction ns with
  | nil => rfl
  | cons a rest ih =>
    rw [buildDates, subDays_ok e h a (hns a (by simp)), ih (fun n hn => hns n (by simp [hn]))]
    rfl

theorem get_days_walk (a b : String) (da db e : Date)
    (ha : parseDate a = some da) (hb : parseDate b = some db) (hne : da ≠ db)
    (he : e = if toOrdinal db < toOrdinal da then da else db) :
    get_days a b = .ok (some ((List.range
        (max (toOrdinal da) (toOrdinal db) - min (toOrdinal da) (toOrdinal db) + 1)).map
      (fun n => strftime (predDay^[n] e)))) := by
  obtain ⟨hva, hya⟩ := parseDate_valid a da ha
  obtain ⟨hvb, hyb⟩ := parseDate_valid b db hb
  have hpa := toOrdinal_pos da hva
  have hpb := toOrdinal_pos db hvb
  unfold get_days
  rw [ha, hb]
  dsimp only
  rw [if_neg hne]
  have hve : isValidDate e := by
    rw [he]
    split_ifs <;> assumption
  have habs : ((toOrdinal db : Int) - (toOrdinal da : Int)).natAbs
      = max (toOrdinal da) (toOrdinal db) - min (toOrdinal da) (toOrdinal db) := by
    omega
  have hcond : (((toOrdinal db : Int) - (toOrdinal da : Int)) < 0)
      = (toOrdinal db < toOrdinal da) := by
    simp only [eq_iff_iff]
    omega
  have hrange : ∀ n ∈ List.range
      (max (toOrdinal da) (toOrdinal db) - min (toOrdinal da) (toOrdinal db) + 1),
      n < toOrdinal e := by
    intro n hn
    rw [List.mem_range] at hn
    rw [he]
    split_ifs with hba
    · omega
    · omega
  simp only [hcond, habs]
  rw [← he]
  rw [buildDates_ok e hve _ hrange]
  rfl

theorem get_days_same (f t : String) (d : Date) (hf : parseDate f = some d)
    (ht : parseDate t = some d) : get_days f t = .ok (some [f]) := by
  unfold get_days
  rw [hf, ht]
  dsimp only
  rw [if_pos rfl]

theorem get_days_ok (a b : String) (da db : Date) (ha : parseDate a = some da)
    (hb : parseDate b = some db) : ∃ L, get_days a b = .ok (some L) := by
  by_cases heq : da = db
  · subst heq
    exact ⟨[a], get_days_same a b da ha hb⟩
  · exact ⟨_, get_days_walk a b da db _ ha hb heq rfl⟩

theorem get_days_none (f t : String) (hinv : parseDate f = none ∨ parseDate t = none) :
    get_days f t = .ok none := by
  unfold get_days
  rcases hinv with h | h
  · rw [h]
  · rw [h]
    rcases parseDate f with _ | d <;> rfl

theorem normalize_none (f t : String) (hinv : parseDate f = none ∨ parseDate t = none) :
    normalize_date_range f t = .ok none := by
  unfold normalize_date_range
  rcases hinv with h | h
  · rw [h]
  · rw [h]
    rcases parseDate f with _ | d <;> rfl

/-! ## Claims -/

/-- C7: for every pair of date strings that parse to the same calendar day,
`get_days` returns the single-element list containing the `from_date`
argument in its original string form (not a reformatted canonical form). -/
theorem claim_get_days_same_day (f t : String) (d : Date) (hf : parseDate f = some d)
    (ht : parseDate t = some d) : get_days f t = .ok (some [f]) :=
  get_days_same f t d hf ht

/-- Witness for C7 at a concrete non-canonical input: both arguments parse
to 2021-01-01 and the raw string "2021-1-1" is returned, unreformatted. -/
theorem claim_get_days_same_day_witness :
    get_days "2021-1-1" "2021-01-1" = .ok (some ["2021-1-1"]) :=
  claim_get_days_same_day "2021-1-1" "2021-01-1" ⟨2021, 1, 1⟩ rfl rfl

/-- C6: for every pair of valid date strings, the list returned by
`get_days` has length the absolute day difference plus one, and equal dates
give the single-element list containing that date. -/
theorem claim_get_days_length (a b : String) (da db : Date)
    (ha : parseDate a = some da) (hb : parseDate b = some db) :
    ∃ L, get_days a b = .ok (some L) ∧
      L.length = ((toOrdinal db : Int) - (toOrdinal da : Int)).natAbs + 1 ∧
      (da = db → L = [a]) := by
  by_cases heq : da = db
  · subst heq
    exact ⟨[a], get_days_same a b da ha hb, by simp, fun _ => rfl⟩
  · refine ⟨_, get_days_walk a b da db _ ha hb heq rfl, ?_, fun hcon => absurd hcon heq⟩
    rw [List.length_map, List.length_range]
    omega

/-- Witness for C6: a three-day range has length `2 + 1 = 3`. -/
theorem claim_get_days_length_witness :
    ∃ L, get_days "2021-01-01" "2021-01-03" = .ok (some L) ∧
      L.length = ((toOrdinal ⟨2021, 1, 3⟩ : Int) - (toOrdinal ⟨2021, 1, 1⟩ : Int)).natAbs + 1 ∧
      ((⟨2021, 1, 1⟩ : Date) = ⟨2021, 1, 3⟩ → L = ["2021-01-01"]) :=
  claim_get_days_length "2021-01-01" "2021-01-03" ⟨2021, 1, 1⟩ ⟨2021, 1, 3⟩ rfl rfl

/-- C8: on unparseable input, `get_days` and `normalize_date_range` return
the `None` sentinel without raising, and `is_valid_args` returns `false`
(never raises) for an empty mapping, missing keys, or unparseable values. -/
theorem claim_invalid_input_sentinels (f t : String) (args : List (String × String))
    (hinv : parseDate f = none ∨ parseDate t = none) :
    get_days f t = .ok none ∧ normalize_date_range f t = .ok none ∧
    is_valid_args [] = false ∧
    (alookup "from" args = none ∨ alookup "to" args = none → is_valid_args args = false) ∧
    (∀ fv tv, alookup "from" args = some fv → alookup "to" args = some tv →
      parseDate fv = none ∨ parseDate tv = none → is_valid_args args = false) := by
  refine ⟨get_days_none f t hinv, normalize_none f t hinv, rfl, ?_, ?_⟩
  · intro hmiss
    unfold is_valid_args
    rcases hargs : args.isEmpty with _ | _
    · rw [if_neg (by simp [hargs])]
      rcases hmiss with h | h
      · rw [h]
      · rw [h]
        rcases alookup "from" args with _ | v <;> rfl
    · rw [if_pos (by simp [hargs])]
  · intro fv tv hfv htv hbad
    unfold is_valid_args
    rcases hargs : args.isEmpty with _ | _
    · rw [if_neg (by simp [hargs]), hfv, htv]
      rcases hbad with h | h <;> simp [h]
    · rw [if_pos (by simp [hargs])]

/-- Witness for C8 at concrete inputs: a malformed `from` date and an
argument map lacking the `to` key. -/
theorem claim_invalid_input_sentinels_witness :
    get_days "bad-date" "2021-01-01" = .ok none ∧
    normalize_date_range "bad-date" "2021-01-01" = .ok none ∧
    is_valid_args [] = false ∧
    (alookup "from" [("from", "2021-01-01")] = none ∨
      alookup "to" [("from", "2021-01-01")] = none →
      is_valid_args [("from", "2021-01-01")] = false) ∧
    (∀ fv tv, alookup "from" [("from", "2021-01-01")] = some fv →
      alookup "to" [("from", "2021-01-01")] = some tv →
      parseDate fv = none ∨ parseDate tv = none →
      is_valid_args [("from", "2021-01-01")] = false) :=
  claim_invalid_input_sentinels "bad-date" "2021-01-01" [("from", "2021-01-01")]
    (Or.inl rfl)

/-- C2: for valid date strings denoting distinct days, `get_days` returns
the dates from the chronologically later down to the earlier one, inclusive
of both endpoints and ordered descending (element `i` is the date whose
ordinal is the larger ordinal minus `i`), and is symmetric in its two
arguments. -/
theorem claim_get_days_descending (a b : String) (da db : Date)
    (ha : parseDate a = some da) (hb : parseDate b = some db) (hne : da ≠ db) :
    ∃ L, get_days a b = .ok (some L) ∧ get_days b a = .ok (some L) ∧
      L.length = max (toOrdinal da) (toOrdinal db) - min (toOrdinal da) (toOrdinal db) + 1 ∧
      ∀ i : Nat, ∀ hi : i < L.length, ∃ di : Date, isValidDate di ∧
        toOrdinal di = max (toOrdinal da) (toOrdinal db) - i ∧
        L.get ⟨i, hi⟩ = strftime di := by
  obtain ⟨hva, hya⟩ := parseDate_valid a da ha
  obtain ⟨hvb, hyb⟩ := parseDate_valid b db hb
  have hpa := toOrdinal_pos da hva
  have hpb := toOrdinal_pos db hvb
  have hone : toOrdinal da ≠ toOrdinal db := fun hcon => hne (toOrdinal_inj da db hva hvb hcon)
  set e : Date := if toOrdinal db < toOrdinal da then da else db with hedef
  have h1 := get_days_walk a b da db e ha hb hne hedef
  have he2 : e = if toOrdinal da < toOrdinal db then db else da := by
    rw [hedef]
    split_ifs
    · exact absurd (by omega : toOrdinal da = toOrdinal db) hone
    · rfl
    · rfl
    · exact absurd (by omega : toOrdinal da = toOrdinal db) hone
  have h2 := get_days_walk b a db da e hb ha (fun hcon => hne hcon.symm) he2
  rw [Nat.max_comm (toOrdinal db) (toOrdinal da), Nat.min_comm (toOrdinal db) (toOrdinal da)]
    at h2
  have hve : isValidDate e := by
    rw [hedef]
    split_ifs <;> assumption
  have hoe : toOrdinal e = max (toOrdinal da) (toOrdinal db) := by
    rw [hedef]
    split_ifs with hc <;> omega
  refine ⟨_, h1, h2, ?_, ?_⟩
  · rw [List.length_map, List.length_range]
  · intro i hi
    rw [List.length_map, List.length_range] at hi
    obtain ⟨hvi, hoi, _, _⟩ := predDay_iter e hve i (by omega)
    refine ⟨predDay^[i] e, hvi, by omega, ?_⟩
    simp only [List.get_eq_getElem, List.getElem_map, List.getElem_range]

/-- Witness for C2: the range 2021-01-03 to 2021-01-01 (reversed input). -/
theorem claim_get_days_descending_witness :
    ∃ L, get_days "2021-01-03" "2021-01-01" = .ok (some L) ∧
      get_days "2021-01-01" "2021-01-03" = .ok (some L) ∧
      L.length = max (toOrdinal ⟨2021, 1, 3⟩) (toOrdinal ⟨2021, 1, 1⟩)
        - min (toOrdinal ⟨2021, 1, 3⟩) (toOrdinal ⟨2021, 1, 1⟩) + 1 ∧
      ∀ i : Nat, ∀ hi : i < L.length, ∃ di : Date, isValidDate di ∧
        toOrdinal di = max (toOrdinal ⟨2021, 1, 3⟩) (toOrdinal ⟨2021, 1, 1⟩) - i ∧
        L.get ⟨i, hi⟩ = strftime di :=
  claim_get_days_descending "2021-01-03" "2021-01-01" ⟨2021, 1, 3⟩ ⟨2021, 1, 1⟩ rfl rfl
    (by decide)

/-! ## Timeline slicing -/

theorem bindOk {α β : Type} (a : α) (f : α → Except String β) :
    (Except.ok a >>= f : Except String β) = f a :=
  rfl

theorem sliceKeep_ok (dates : List String) (r : Json) (s : String)
    (hs : tsKey r = .ok s) :
    sliceKeep (some dates) r = .ok (keepRec (dates) r) := by
  unfold sliceKeep keepRec
  rw [hs, bindOk]

theorem get_timeline_slice_ok (timeline : List Json) (dates : List String)
    (hwf : ∀ r ∈ timeline, ∃ s, tsKey r = .ok s) :
    get_timeline_slice timeline (some dates) = .ok (timeline.filter (keepRec dates)) := by
  induction timeline with
  | nil => rfl
  | cons r rest ih =>
    obtain ⟨s, hs⟩ := hwf r (by simp)
    simp only [get_timeline_slice]
    rw [sliceKeep_ok dates r s hs, bindOk, ih (fun x hx => hwf x (by simp [hx])), bindOk,
      List.filter_cons]

theorem bindErr {α β : Type} (e : String) (f : α → Except String β) :
    (Except.error e >>= f : Except String β) = Except.error e :=
  rfl

theorem sliceKeep_noneDates (r : Json) : ∃ msg, sliceKeep none r = .error msg := by
  unfold sliceKeep
  cases htk : tsKey r
  · exact ⟨_, rfl⟩
  · exact ⟨"TypeError", rfl⟩

theorem get_timeline_slice_noneDates (r : Json) (rest : List Json) :
    ∃ msg, get_timeline_slice (r :: rest) none = .error msg := by
  obtain ⟨msg, hmsg⟩ := sliceKeep_noneDates r
  simp only [get_timeline_slice]
  rw [hmsg, bindErr]
  exact ⟨msg, rfl⟩

/-- C3: `get_timeline_slice` over a well-formed record list and a date list
computes exactly the stable filter keeping the records whose timestamp's
first ten characters occur in the date list; the output is a sublist of the
input (order preserved, records unchanged) and no longer than the input. -/
theorem claim_timeline_slice_filter (timeline : List Json) (dates : List String)
    (hwf : ∀ r ∈ timeline, ∃ s, tsKey r = .ok s) :
    get_timeline_slice timeline (some dates) = .ok (timeline.filter (keepRec dates)) ∧
    (timeline.filter (keepRec dates)).Sublist timeline ∧
    (timeline.filter (keepRec dates)).length ≤ timeline.length ∧
    (∀ r ∈ timeline.filter (keepRec dates), ∃ s, tsKey r = .ok s ∧ s.take 10 ∈ dates) ∧
    (∀ r ∈ timeline, ∀ s, tsKey r = .ok s → s.take 10 ∈ dates →
      r ∈ timeline.filter (keepRec dates)) := by
  refine ⟨get_timeline_slice_ok timeline dates hwf, List.filter_sublist _,
    List.length_filter_le _ _, ?_, ?_⟩
  · intro r hr
    obtain ⟨hrt, hkr⟩ := List.mem_filter.mp hr
    unfold keepRec at hkr
    split at hkr
    · rename_i s hsk
      exact ⟨s, hsk, of_decide_eq_true hkr⟩
    · exact absurd hkr (by simp)
  · intro r hrt s hsk hmem
    refine List.mem_filter.mpr ⟨hrt, ?_⟩
    unfold keepRec
    rw [hsk]
    exact decide_eq_true hmem

/-- Witness for C3: two records, one matching date. -/
theorem claim_timeline_slice_filter_witness :
    get_timeline_slice
        [Json.obj [("count", Json.num 1), ("timestamp", Json.str "2021-01-01T00:00:00Z")],
         Json.obj [("count", Json.num 2), ("timestamp", Json.str "2021-01-02T00:00:00Z")]]
        (some ["2021-01-01"])
      = .ok ([Json.obj [("count", Json.num 1), ("timestamp", Json.str "2021-01-01T00:00:00Z")],
          Json.obj [("count", Json.num 2), ("timestamp", Json.str "2021-01-02T00:00:00Z")]].filter
            (keepRec ["2021-01-01"])) ∧
    ([Json.obj [("count", Json.num 1), ("timestamp", Json.str "2021-01-01T00:00:00Z")],
        Json.obj [("count", Json.num 2), ("timestamp", Json.str "2021-01-02T00:00:00Z")]].filter
          (keepRec ["2021-01-01"])).Sublist
      [Json.obj [("count", Json.num 1), ("timestamp", Json.str "2021-01-01T00:00:00Z")],
       Json.obj [("count", Json.num 2), ("timestamp", Json.str "2021-01-02T00:00:00Z")]] ∧
    ([Json.obj [("count", Json.num 1), ("timestamp", Json.str "2021-01-01T00:00:00Z")],
        Json.obj [("count", Json.num 2), ("timestamp", Json.str "2021-01-02T00:00:00Z")]].filter
          (keepRec ["2021-01-01"])).length ≤
      ([Json.obj [("count", Json.num 1), ("timestamp", Json.str "2021-01-01T00:00:00Z")],
        Json.obj [("count", Json.num 2), ("timestamp", Json.str "2021-01-02T00:00:00Z")]]).length ∧
    (∀ r ∈ [Json.obj [("count", Json.num 1), ("timestamp", Json.str "2021-01-01T00:00:00Z")],
        Json.obj [("count", Json.num 2), ("timestamp", Json.str "2021-01-02T00:00:00Z")]].filter
          (keepRec ["2021-01-01"]),
      ∃ s, tsKey r = .ok s ∧ s.take 10 ∈ ["2021-01-01"]) ∧
    (∀ r ∈ [Json.obj [("count", Json.num 1), ("timestamp", Json.str "2021-01-01T00:00:00Z")],
        Json.obj [("count", Json.num 2), ("timestamp", Json.str "2021-01-02T00:00:00Z")]],
      ∀ s, tsKey r = .ok s → s.take 10 ∈ ["2021-01-01"] →
        r ∈ [Json.obj [("count", Json.num 1), ("timestamp", Json.str "2021-01-01T00:00:00Z")],
          Json.obj [("count", Json.num 2),
            ("timestamp", Json.str "2021-01-02T00:00:00Z")]].filter (keepRec ["2021-01-01"])) :=
  claim_timeline_slice_filter
    [Json.obj [("count", Json.num 1), ("timestamp", Json.str "2021-01-01T00:00:00Z")],
     Json.obj [("count", Json.num 2), ("timestamp", Json.str "2021-01-02T00:00:00Z")]]
    ["2021-01-01"]
    (by
      intro r hr
      simp only [List.mem_cons, List.not_mem_nil, or_false] at hr
      rcases hr with rfl | rfl
      · exact ⟨"2021-01-01T00:00:00Z", rfl⟩
      · exact ⟨"2021-01-02T00:00:00Z", rfl⟩)

theorem jlookup_setField_ne (k q : String) (v : Json) (fields : List (String × Json))
    (h : q ≠ k) : jlookup q (setField k v fields) = jlookup q fields := by
  induction fields with
  | nil =>
    simp only [setField, jlookup]
    rw [if_neg (fun hc => h hc.symm)]
  | cons p rest ih =>
    obtain ⟨k0, v0⟩ := p
    simp only [setField]
    split_ifs with hk0
    · subst hk0
      simp only [jlookup]
      rw [if_neg (fun hc => h hc.symm), if_neg (fun hc => h hc.symm)]
    · simp only [jlookup]
      split_ifs with hq
      · rfl
      · exact ih

theorem setField_keys (k : String) (v : Json) (fields : List (String × Json))
    (h : jlookup k fields ≠ none) :
    (setField k v fields).map Prod.fst = fields.map Prod.fst := by
  induction fields with
  | nil => exact absurd rfl h
  | cons p rest ih =>
    obtain ⟨k0, v0⟩ := p
    simp only [setField]
    split_ifs with hk0
    · subst hk0
      simp
    · simp only [List.map_cons]
      rw [ih]
      intro hc
      apply h
      simp only [jlookup]
      rw [if_neg hk0]
      exact hc

/-- C9: for a JSON-object envelope holding a well-formed timeline array and
two valid date strings, `get_json_slice` rewrites only the `timeline`
field: every other key looks up to its original value, and the key sequence
of the envelope is unchanged. -/
theorem claim_json_slice_frame (fields : List (String × Json)) (timeline : List Json)
    (f t : String) (df dt : Date)
    (hf : parseDate f = some df) (ht : parseDate t = some dt)
    (htl : jlookup "timeline" fields = some (.arr timeline))
    (hwf : ∀ r ∈ timeline, ∃ s, tsKey r = .ok s) :
    ∃ part, get_json_slice (.obj fields) f t
        = .ok (.obj (setField "timeline" (.arr part) fields)) ∧
      (∀ k, k ≠ "timeline" →
        jlookup k (setField "timeline" (.arr part) fields) = jlookup k fields) ∧
      (setField "timeline" (.arr part) fields).map Prod.fst = fields.map Prod.fst := by
  obtain ⟨L, hL⟩ := get_days_ok f t df dt hf ht
  refine ⟨timeline.filter (keepRec L), ?_, ?_, ?_⟩
  · unfold get_json_slice
    rw [hL, bindOk]
    dsimp only
    rw [htl]
    dsimp only
    rw [get_timeline_slice_ok timeline L hwf, bindOk]
  · intro k hk
    exact jlookup_setField_ne "timeline" k (.arr (timeline.filter (keepRec L))) fields hk
  · exact setField_keys "timeline" (.arr (timeline.filter (keepRec L))) fields
      (by rw [htl]; exact fun hc => Option.noConfusion hc)

/-- Witness for C9: an envelope with a `name` field and a one-record
timeline, sliced over a one-day range. -/
theorem claim_json_slice_frame_witness :
    ∃ part, get_json_slice
        (.obj [("about", Json.str "issues"),
          ("timeline", .arr [Json.obj [("timestamp", Json.str "2021-01-01T00:00:00Z")]])])
        "2021-01-01" "2021-01-02"
        = .ok (.obj (setField "timeline" (.arr part)
          [("about", Json.str "issues"),
           ("timeline", .arr [Json.obj [("timestamp", Json.str "2021-01-01T00:00:00Z")]])])) ∧
      (∀ k, k ≠ "timeline" →
        jlookup k (setField "timeline" (.arr part)
          [("about", Json.str "issues"),
           ("timeline", .arr [Json.obj [("timestamp", Json.str "2021-01-01T00:00:00Z")]])])
        = jlookup k [("about", Json.str "issues"),
           ("timeline", .arr [Json.obj [("timestamp", Json.str "2021-01-01T00:00:00Z")]])]) ∧
      (setField "timeline" (.arr part)
          [("about", Json.str "issues"),
           ("timeline", .arr [Json.obj [("timestamp", Json.str "2021-01-01T00:00:00Z")]])]).map
          Prod.fst
        = [("about", Json.str "issues"),
           ("timeline", .arr [Json.obj [("timestamp",
             Json.str "2021-01-01T00:00:00Z")]])].map Prod.fst :=
  claim_json_slice_frame
    [("about", Json.str "issues"),
     ("timeline", .arr [Json.obj [("timestamp", Json.str "2021-01-01T00:00:00Z")]])]
    [Json.obj [("timestamp", Json.str "2021-01-01T00:00:00Z")]]
    "2021-01-01" "2021-01-02" ⟨2021, 1, 1⟩ ⟨2021, 1, 2⟩ rfl rfl rfl
    (by
      intro r hr
      simp only [List.mem_cons, List.not_mem_nil, or_false] at hr
      subst hr
      exact ⟨"2021-01-01T00:00:00Z", rfl⟩)

/-- C1 counterexample: with an unparseable `from_date` and a non-empty
timeline, `get_json_slice` raises a `TypeError` (the Python membership test
`... in None`) instead of returning the envelope with an empty timeline. -/
theorem claim_json_slice_invalid_dates_cex :
    get_json_slice
        (.obj [("timeline", .arr [Json.obj [("count", Json.num 1),
          ("timestamp", Json.str "2021-01-01T00:00:00Z")]])])
        "bad-date" "2021-01-01"
      = .error "TypeError" ∧
    ∀ j : Json, get_json_slice
        (.obj [("timeline", .arr [Json.obj [("count", Json.num 1),
          ("timestamp", Json.str "2021-01-01T00:00:00Z")]])])
        "bad-date" "2021-01-01"
      ≠ .ok j := by
  constructor
  · rfl
  · intro j h
    rw [show get_json_slice
        (.obj [("timeline", .arr [Json.obj [("count", Json.num 1),
          ("timestamp", Json.str "2021-01-01T00:00:00Z")]])])
        "bad-date" "2021-01-01" = Except.error "TypeError" from rfl] at h
    exact Except.noConfusion h

/-- C1 (amended): when either date fails to parse, `get_json_slice` returns
the re-encoded envelope with an empty timeline only if the timeline was
already empty; for a non-empty timeline it raises an error to the caller
(the membership test against the `None` sentinel). -/
theorem claim_json_slice_invalid_dates (fields : List (String × Json)) (timeline : List Json)
    (f t : String) (hinv : parseDate f = none ∨ parseDate t = none)
    (htl : jlookup "timeline" fields = some (.arr timeline)) :
    (timeline = [] → get_json_slice (.obj fields) f t
        = .ok (.obj (setField "timeline" (.arr []) fields))) ∧
    (timeline ≠ [] → ∃ msg, get_json_slice (.obj fields) f t = .error msg) := by
  have hdays := get_days_none f t hinv
  constructor
  · intro hempty
    subst hempty
    unfold get_json_slice
    rw [hdays, bindOk]
    dsimp only
    rw [htl]
    rfl
  · intro hne
    rcases timeline with _ | ⟨r, rest⟩
    · exact absurd rfl hne
    · obtain ⟨msg, hmsg⟩ := get_timeline_slice_noneDates r rest
      refine ⟨msg, ?_⟩
      unfold get_json_slice
      rw [hdays, bindOk]
      dsimp only
      rw [htl]
      dsimp only
      rw [hmsg, bindErr]

/-- Witness for C1 (amended) at an empty-timeline envelope. -/
theorem claim_json_slice_invalid_dates_witness :
    (([] : List Json) = [] → get_json_slice (.obj [("timeline", .arr ([] : List Json))])
        "bad-date" "2021-01-01"
        = .ok (.obj (setField "timeline" (.arr ([] : List Json))
          [("timeline", .arr ([] : List Json))]))) ∧
    (([] : List Json) ≠ [] → ∃ msg, get_json_slice (.obj [("timeline", .arr ([] : List Json))])
        "bad-date" "2021-01-01" = .error msg) :=
  claim_json_slice_invalid_dates [("timeline", .arr [])] [] "bad-date" "2021-01-01"
    (Or.inl rfl) rfl

/-! ## Rendering and re-parsing dates -/

theorem digitChar_isDigit (k : Nat) (h : k < 10) : (digitChar k).isDigit = true := by
  interval_cases k <;> decide

theorem digitVal_digitChar (k : Nat) (h : k < 10) : digitVal (digitChar k) = k := by
  interval_cases k <;> decide

theorem parse2or1_render (maxV v : Nat) (rest : List Char) (h1 : 1 ≤ v) (h2 : v ≤ maxV)
    (h99 : v ≤ 99) :
    parse2or1 maxV (digitChar (v / 10 % 10) :: digitChar (v % 10) :: rest) = some (v, rest) := by
  rw [parse2or1]
  rw [if_pos (digitChar_isDigit _ (by omega))]
  rw [if_pos (digitChar_isDigit _ (by omega))]
  rw [digitVal_digitChar (v / 10 % 10) (by omega), digitVal_digitChar (v % 10) (by omega)]
  rw [if_pos (by omega : 1 ≤ 10 * (v / 10 % 10) + v % 10 ∧ 10 * (v / 10 % 10) + v % 10 ≤ maxV)]
  have hv : 10 * (v / 10 % 10) + v % 10 = v := by omega
  rw [hv]

theorem yearNum_render (y : Nat) (h : y ≤ 9999) :
    yearNum (digitChar (y / 1000 % 10)) (digitChar (y / 100 % 10)) (digitChar (y / 10 % 10))
      (digitChar (y % 10)) = y := by
  unfold yearNum
  rw [digitVal_digitChar _ (by omega), digitVal_digitChar _ (by omega),
    digitVal_digitChar _ (by omega), digitVal_digitChar _ (by omega)]
  omega

theorem parse_strftime (d : Date) (h : isValidDate d) (h9 : d.year ≤ 9999) :
    parseDate (strftime d) = some d := by
  obtain ⟨y, m, dd⟩ := d
  rw [isValidDate_mk] at h
  obtain ⟨hy, hm1, hm12, hd1, hd2⟩ := h
  simp only at h9
  have hdim := daysInMonth_le_31 y m
  show parseYMD (digitChar (y / 1000 % 10)) (digitChar (y / 100 % 10))
      (digitChar (y / 10 % 10)) (digitChar (y % 10))
      (digitChar (m / 10 % 10) :: digitChar (m % 10) :: '-' :: digitChar (dd / 10 % 10)
        :: digitChar (dd % 10) :: []) = some ⟨y, m, dd⟩
  rw [parseYMD]
  rw [if_pos ⟨digitChar_isDigit _ (by omega), digitChar_isDigit _ (by omega),
    digitChar_isDigit _ (by omega), digitChar_isDigit _ (by omega)⟩]
  rw [parse2or1_render 12 m ('-' :: digitChar (dd / 10 % 10) :: digitChar (dd % 10) :: [])
    hm1 hm12 (by omega)]
  dsimp only
  rw [parse2or1_render 31 dd [] hd1 (by omega) (by omega)]
  dsimp only
  rw [yearNum_render y h9]
  rw [if_pos (show 1 ≤ y ∧ dd ≤ daysInMonth y m from ⟨hy, hd2⟩)]
  rw [if_pos (rfl : ('-' : Char) = '-')]

/-! ## Normalizing date ranges -/

theorem succDay_year_le (dt : Date) (hv : isValidDate dt) (hy : dt.year ≤ 9999)
    (hne : dt ≠ ⟨9999, 12, 31⟩) : (succDay dt).year ≤ 9999 := by
  obtain ⟨y, m, dd⟩ := dt
  rw [isValidDate_mk] at hv
  simp only at hy
  rw [succDay_mk]
  split_ifs with h1 h2
  · exact hy
  · exact hy
  · simp only
    have hm12 : m = 12 := by omega
    subst hm12
    have hdim : daysInMonth y 12 = 31 := rfl
    have hdd : dd = 31 := by omega
    subst hdd
    have : y ≠ 9999 := by
      intro hc
      subst hc
      exact hne rfl
    omega

theorem normalize_ok (f t : String) (df dt : Date) (hf : parseDate f = some df)
    (ht : parseDate t = some dt) (hne : dt ≠ ⟨9999, 12, 31⟩) :
    normalize_date_range f t = .ok (some (strftime df, strftime (succDay dt))) := by
  obtain ⟨hvt, hyt⟩ := parseDate_valid t dt ht
  unfold normalize_date_range
  rw [hf, ht]
  dsimp only
  rw [if_pos (succDay_year_le dt hvt hyt hne)]

/-- C4 counterexample: for the valid pair ("2021-01-01", "9999-12-31") the
function does not return a pair at all — adding one day to `to_date`
overflows `datetime.max` and the `OverflowError` escapes (the addition sits
outside the `try` block). -/
theorem claim_normalize_range_cex :
    normalize_date_range "2021-01-01" "9999-12-31" = .error "OverflowError" ∧
    ∀ p : Option (String × String),
      normalize_date_range "2021-01-01" "9999-12-31" ≠ .ok p := by
  constructor
  · rfl
  · intro p h
    rw [show normalize_date_range "2021-01-01" "9999-12-31" = .error "OverflowError"
      from rfl] at h
    exact Except.noConfusion h

/-- C4 (amended): for valid date strings with `to_date` not 9999-12-31,
`normalize_date_range` returns the literal pair (canonical `from_date`,
canonical day-after-`to_date`) — one ordinal later — without reordering its
inputs even when `from_date` is chronologically after `to_date`; for
`to_date` = 9999-12-31 an `OverflowError` escapes instead. -/
theorem claim_normalize_range (f t : String) (df dt : Date)
    (hf : parseDate f = some df) (ht : parseDate t = some dt) :
    (dt ≠ ⟨9999, 12, 31⟩ →
      normalize_date_range f t = .ok (some (strftime df, strftime (succDay dt))) ∧
      toOrdinal (succDay dt) = toOrdinal dt + 1) ∧
    (dt = ⟨9999, 12, 31⟩ → normalize_date_range f t = .error "OverflowError") := by
  constructor
  · intro hne
    exact ⟨normalize_ok f t df dt hf ht hne,
      toOrdinal_succDay dt (parseDate_valid t dt ht).1⟩
  · intro heq
    subst heq
    unfold normalize_date_range
    rw [hf, ht]
    dsimp only
    rw [if_neg (by decide)]

/-- Witness for C4 at a reversed range: `from_date` is chronologically
after `to_date` and the pair is still returned in argument order. -/
theorem claim_normalize_range_witness :
    ((⟨2021, 1, 1⟩ : Date) ≠ ⟨9999, 12, 31⟩ →
      normalize_date_range "2021-01-05" "2021-01-01"
        = .ok (some (strftime ⟨2021, 1, 5⟩, strftime (succDay ⟨2021, 1, 1⟩))) ∧
      toOrdinal (succDay ⟨2021, 1, 1⟩) = toOrdinal ⟨2021, 1, 1⟩ + 1) ∧
    ((⟨2021, 1, 1⟩ : Date) = ⟨9999, 12, 31⟩ →
      normalize_date_range "2021-01-05" "2021-01-01" = .error "OverflowError") :=
  claim_normalize_range "2021-01-05" "2021-01-01" ⟨2021, 1, 5⟩ ⟨2021, 1, 1⟩ rfl rfl

/-- C10 counterexample: the equal-dates claim fails at the valid date
string "9999-12-31": instead of returning a pair, the call raises
`OverflowError`. -/
theorem claim_normalize_equal_dates_cex :
    normalize_date_range "9999-12-31" "9999-12-31" = .error "OverflowError" ∧
    ∀ p : Option (String × String),
      normalize_date_range "9999-12-31" "9999-12-31" ≠ .ok p := by
  constructor
  · rfl
  · intro p h
    rw [show normalize_date_range "9999-12-31" "9999-12-31" = .error "OverflowError"
      from rfl] at h
    exact Except.noConfusion h

/-- C10 (amended): for every valid date string other than 9999-12-31,
`normalize_date_range(d, d)` performs the same plus-one-day normalization
as for distinct dates — returning (canonical `d`, canonical day after `d`),
not the single `from_date` its docstring promises. -/
theorem claim_normalize_equal_dates (s : String) (d : Date) (h : parseDate s = some d)
    (hne : d ≠ ⟨9999, 12, 31⟩) :
    normalize_date_range s s = .ok (some (strftime d, strftime (succDay d))) ∧
    toOrdinal (succDay d) = toOrdinal d + 1 :=
  ⟨normalize_ok s s d d h h hne, toOrdinal_succDay d (parseDate_valid s d h).1⟩

/-- Witness for C10 at "2021-01-01". -/
theorem claim_normalize_equal_dates_witness :
    normalize_date_range "2021-01-01" "2021-01-01"
      = .ok (some (strftime ⟨2021, 1, 1⟩, strftime (succDay ⟨2021, 1, 1⟩))) ∧
    toOrdinal (succDay ⟨2021, 1, 1⟩) = toOrdinal ⟨2021, 1, 1⟩ + 1 :=
  claim_normalize_equal_dates "2021-01-01" ⟨2021, 1, 1⟩ rfl (by decide)

/-! ## Canonical ten-character date strings -/

theorem digitChar_digitVal (c : Char) (h : c.isDigit = true) : digitChar (digitVal c) = c := by
  obtain ⟨h48, h57⟩ := isDigit_toNat c h
  have hofn := Char.ofNat_toNat c
  have hk : digitVal c ≤ 9 := digitVal_le_9 c h
  have htn : c.toNat = 48 + digitVal c := by
    unfold digitVal
    omega
  rw [← hofn, htn]
  interval_cases hv : (digitVal c) <;> decide

theorem parse2or1_shape (maxV : Nat) (cs : List Char) (v : Nat) (rest : List Char)
    (h : parse2or1 maxV cs = some (v, rest)) :
    (∃ a b, cs = a :: b :: rest ∧ a.isDigit = true ∧ b.isDigit = true ∧
      v = 10 * digitVal a + digitVal b) ∨
    (∃ a, cs = a :: rest ∧ a.isDigit = true ∧ a ≠ '0' ∧ v = digitVal a) := by
  match cs with
  | [] => exact absurd h (by simp [parse2or1])
  | [a] =>
    rw [parse2or1] at h
    split_ifs at h with hc
    · obtain ⟨hd, h0⟩ := hc
      injection h with h
      injection h with hv hrest
      exact Or.inr ⟨a, by rw [← hrest], hd, h0, hv.symm⟩
  | a :: b :: cs' =>
    rw [parse2or1] at h
    split_ifs at h with hda hdb hb h0
    · injection h with h
      injection h with hv hrest
      exact Or.inl ⟨a, b, by rw [hrest], hda, hdb, hv.symm⟩
    · injection h with h
      injection h with hv hrest
      exact Or.inr ⟨a, by rw [hrest], hda, h0, hv.symm⟩

theorem parse_canonical (s : String) (d : Date) (h : parseDate s = some d)
    (hlen : s.length = 10) : s = strftime d := by
  obtain ⟨sdata⟩ := s
  have hlen' : sdata.length = 10 := hlen
  rw [parseDate] at h
  split at h
  · rename_i x c1 c2 c3 c4 c5 rest heq
    split_ifs at h with hdash
    subst hdash
    rw [parseYMD] at h
    split_ifs at h with hds
    · obtain ⟨h1, h2, h3, h4⟩ := hds
      split at h
      · rename_i m c rest2 hm
        split at h
        · rename_i hdash2
          subst hdash2
          split at h
          · rename_i dd hdd
            split_ifs at h with hok
            · injection h with h
              subst h
              have heqd : sdata = c1 :: c2 :: c3 :: c4 :: '-' :: rest := heq
              rcases parse2or1_shape 12 rest m ('-' :: rest2) hm with
                ⟨a, b, hsh, hda, hdb, hval⟩ | ⟨a, hsh, hda, h0, hval⟩
              · rcases parse2or1_shape 31 rest2 dd [] hdd with
                  ⟨e1, e2, hsh2, hde1, hde2, hval2⟩ | ⟨e1, hsh2, hde1, h02, hval2⟩
                · -- canonical shape: 4 + 1 + 2 + 1 + 2 characters
                  subst hsh2
                  subst hsh
                  subst heqd
                  show String.mk _ = String.mk _
                  congr 1
                  have hv1 := digitVal_le_9 c1 h1
                  have hv2 := digitVal_le_9 c2 h2
                  have hv3 := digitVal_le_9 c3 h3
                  have hv4 := digitVal_le_9 c4 h4
                  have hva := digitVal_le_9 a hda
                  have hvb := digitVal_le_9 b hdb
                  have hve1 := digitVal_le_9 e1 hde1
                  have hve2 := digitVal_le_9 e2 hde2
                  simp only [strftime, yearNum, twoChars, yearChars]
                  rw [show (1000 * digitVal c1 + 100 * digitVal c2 + 10 * digitVal c3
                      + digitVal c4) / 1000 % 10 = digitVal c1 from by omega]
                  rw [show (1000 * digitVal c1 + 100 * digitVal c2 + 10 * digitVal c3
                      + digitVal c4) / 100 % 10 = digitVal c2 from by omega]
                  rw [show (1000 * digitVal c1 + 100 * digitVal c2 + 10 * digitVal c3
                      + digitVal c4) / 10 % 10 = digitVal c3 from by omega]
                  rw [show (1000 * digitVal c1 + 100 * digitVal c2 + 10 * digitVal c3
                      + digitVal c4) % 10 = digitVal c4 from by omega]
                  rw [hval, hval2]
                  rw [show (10 * digitVal a + digitVal b) / 10 % 10 = digitVal a from by omega]
                  rw [show (10 * digitVal a + digitVal b) % 10 = digitVal b from by omega]
                  rw [show (10 * digitVal e1 + digitVal e2) / 10 % 10 = digitVal e1
                    from by omega]
                  rw [show (10 * digitVal e1 + digitVal e2) % 10 = digitVal e2 from by omega]
                  rw [digitChar_digitVal c1 h1, digitChar_digitVal c2 h2,
                    digitChar_digitVal c3 h3, digitChar_digitVal c4 h4,
                    digitChar_digitVal a hda, digitChar_digitVal b hdb,
                    digitChar_digitVal e1 hde1, digitChar_digitVal e2 hde2]
                  rfl
                · -- one-digit day: total length 9, contradicting hlen
                  exfalso
                  subst hsh2
                  subst hsh
                  subst heqd
                  simp at hlen'
              · -- one-digit month: the remaining day field cannot use 3 characters
                exfalso
                rcases parse2or1_shape 31 rest2 dd [] hdd with
                  ⟨e1, e2, hsh2, _, _, _⟩ | ⟨e1, hsh2, _, _, _⟩ <;>
                  (subst hsh2; subst hsh; subst heqd; simp at hlen')
          · exact absurd h (by simp)
        · exact absurd h (by simp)
      · exact absurd h (by simp)
  · exact absurd h (by simp)

theorem strftime_mem_walk (e dr : Date) (hve : isValidDate e) (hvr : isValidDate dr)
    (D : Nat) (hD : toOrdinal e - toOrdinal dr ≤ D) (hle : toOrdinal dr ≤ toOrdinal e) :
    strftime dr ∈ (List.range (D + 1)).map (fun n => strftime (predDay^[n] e)) := by
  have hposr := toOrdinal_pos dr hvr
  refine List.mem_map.mpr ⟨toOrdinal e - toOrdinal dr, List.mem_range.mpr (by omega), ?_⟩
  obtain ⟨hv, ho, _, _⟩ := predDay_iter e hve (toOrdinal e - toOrdinal dr) (by omega)
  rw [toOrdinal_inj _ _ hv hvr (by omega)]

/-- C5: slicing an envelope whose record timestamps carry ten-character
date prefixes all parsing into the requested range `[D1, Dn]` returns the
envelope with its timeline array unchanged in content and order. -/
theorem claim_json_slice_round_trip (fields : List (String × Json)) (timeline : List Json)
    (d1s dns : String) (dd1 ddn : Date)
    (h1 : parseDate d1s = some dd1) (hn : parseDate dns = some ddn)
    (hlen1 : d1s.length = 10) (hlenn : dns.length = 10)
    (hrange : toOrdinal dd1 ≤ toOrdinal ddn)
    (htl : jlookup "timeline" fields = some (.arr timeline))
    (hrec : ∀ r ∈ timeline, ∃ ts, tsKey r = .ok ts ∧ ∃ dr, parseDate (ts.take 10) = some dr ∧
      (ts.take 10).length = 10 ∧ toOrdinal dd1 ≤ toOrdinal dr ∧ toOrdinal dr ≤ toOrdinal ddn) :
    get_json_slice (.obj fields) d1s dns
      = .ok (.obj (setField "timeline" (.arr timeline) fields)) := by
  obtain ⟨hv1, hy1⟩ := parseDate_valid d1s dd1 h1
  obtain ⟨hvn, hyn⟩ := parseDate_valid dns ddn hn
  obtain ⟨L, hL, hmem⟩ : ∃ L, get_days d1s dns = .ok (some L) ∧
      ∀ r ∈ timeline, keepRec L r = true := by
    by_cases heq : dd1 = ddn
    · subst heq
      refine ⟨[d1s], get_days_same d1s dns dd1 h1 hn, ?_⟩
      intro r hr
      obtain ⟨ts, hts, dr, hdr, hlents, hlo, hhi⟩ := hrec r hr
      have hvr := (parseDate_valid _ dr hdr).1
      have hdr1 : dr = dd1 := toOrdinal_inj dr dd1 hvr hv1 (by omega)
      unfold keepRec
      rw [hts]
      apply decide_eq_true
      rw [parse_canonical _ dr hdr hlents, hdr1, ← parse_canonical d1s dd1 h1 hlen1]
      exact List.mem_singleton.mpr rfl
    · refine ⟨_, get_days_walk d1s dns dd1 ddn ddn h1 hn heq (by rw [if_neg (by omega)]), ?_⟩
      intro r hr
      obtain ⟨ts, hts, dr, hdr, hlents, hlo, hhi⟩ := hrec r hr
      have hvr := (parseDate_valid _ dr hdr).1
      unfold keepRec
      rw [hts]
      apply decide_eq_true
      rw [parse_canonical _ dr hdr hlents]
      exact strftime_mem_walk ddn dr hvn hvr _ (by omega) hhi
  have hwf : ∀ r ∈ timeline, ∃ s, tsKey r = .ok s := by
    intro r hr
    obtain ⟨ts, hts, _⟩ := hrec r hr
    exact ⟨ts, hts⟩
  unfold get_json_slice
  rw [hL, bindOk]
  dsimp only
  rw [htl]
  dsimp only
  rw [get_timeline_slice_ok timeline L hwf, bindOk, List.filter_eq_self.mpr hmem]

/-- Witness for C5: a two-record timeline fully inside the requested
two-day range comes back unchanged. -/
theorem claim_json_slice_round_trip_witness :
    get_json_slice
        (.obj [("timeline", .arr [
          Json.obj [("count", Json.num 1), ("timestamp", Json.str "2021-01-01T00:00:00Z")],
          Json.obj [("count", Json.num 2), ("timestamp", Json.str "2021-01-02T12:30:00Z")]])])
        "2021-01-01" "2021-01-02"
      = .ok (.obj (setField "timeline" (.arr [
          Json.obj [("count", Json.num 1), ("timestamp", Json.str "2021-01-01T00:00:00Z")],
          Json.obj [("count", Json.num 2), ("timestamp", Json.str "2021-01-02T12:30:00Z")]])
          [("timeline", .arr [
            Json.obj [("count", Json.num 1), ("timestamp", Json.str "2021-01-01T00:00:00Z")],
            Json.obj [("count", Json.num 2),
              ("timestamp", Json.str "2021-01-02T12:30:00Z")]])])) :=
  claim_json_slice_round_trip
    [("timeline", .arr [
      Json.obj [("count", Json.num 1), ("timestamp", Json.str "2021-01-01T00:00:00Z")],
      Json.obj [("count", Json.num 2), ("timestamp", Json.str "2021-01-02T12:30:00Z")]])]
    [Json.obj [("count", Json.num 1), ("timestamp", Json.str "2021-01-01T00:00:00Z")],
     Json.obj [("count", Json.num 2), ("timestamp", Json.str "2021-01-02T12:30:00Z")]]
    "2021-01-01" "2021-01-02" ⟨2021, 1, 1⟩ ⟨2021, 1, 2⟩
    rfl rfl rfl rfl (by decide) rfl
    (by
      intro r hr
      simp only [List.mem_cons, List.not_mem_nil, or_false] at hr
      rcases hr with rfl | rfl
      · exact ⟨"2021-01-01T00:00:00Z", rfl, ⟨2021, 1, 1⟩, rfl, rfl, by omega, by decide⟩
      · exact ⟨"2021-01-02T12:30:00Z", rfl, ⟨2021, 1, 2⟩, rfl, rfl, by decide, by omega⟩)
